import Mathlib

/-!
Shallow embedding of `src/config.rs` from the rustysd repository.

The Rust module resolves runtime configuration from two candidate files
(`rustysd_config.json` / `rustysd_config.toml`), an environment-variable
overlay, and fixed defaults.  External effects are modelled as explicit
oracles passed to `load_config`:

* `fsE : String → Bool` models `Path::exists`;
* `jR : String → Except String JsonValue` models `File::open` followed by
  `serde_json::from_reader` at a given path (open/decode failure becomes
  `Except.error`, matching the error strings the Rust code builds);
* `tR : String → Except String TomlValue` models `File::open` followed by
  `toml::from_str`;
* `env : List (String × String)` models the `std::env::vars()` iteration,
  in iteration order.

Paths (`PathBuf`) are modelled as strings; `PathBuf::join` appends with a
slash separator, which reproduces `PathBuf` equality for the paths the
code compares.  The `HashMap<String, SettingValue>` settings store is
modelled as a function `String → Option SettingValue` with last-write-wins
insertion, matching `HashMap::insert` / `HashMap::get`.
-/

/-- Mirrors Rust `enum SettingValue { Str(String), Array(Vec<SettingValue>) }`. -/
inductive SettingValue where
  | Str : String → SettingValue
  | Array : List SettingValue → SettingValue

/-- The settings store: `HashMap<String, SettingValue>` modelled extensionally. -/
abbrev Store := String → Option SettingValue

/-- `HashMap::insert`: later writes silently replace earlier ones. -/
def Store.insert (settings : Store) (k : String) (v : SettingValue) : Store :=
  fun q => if q = k then some v else settings q

/-- The empty settings store (`HashMap::new()`). -/
def initialStore : Store := fun _ => none

/-- Mirrors `toml::Value`.  Extraction only distinguishes `String`, `Array`
and `Table` nodes from the rest, so the payloads of the never-inspected
variants (`Integer`, `Float`, `Boolean`, `Datetime`) are elided. -/
inductive TomlValue where
  | str : String → TomlValue
  | int : Int → TomlValue
  | float : TomlValue
  | boolean : Bool → TomlValue
  | datetime : TomlValue
  | arr : List TomlValue → TomlValue
  | table : List (String × TomlValue) → TomlValue

/-- Mirrors `serde_json::Value` (`Null`, `Bool`, `Number`, `String`,
`Array`, `Object`); the number payload is elided as it is never read. -/
inductive JsonValue where
  | null : JsonValue
  | bool : Bool → JsonValue
  | number : Int → JsonValue
  | str : String → JsonValue
  | arr : List JsonValue → JsonValue
  | obj : List (String × JsonValue) → JsonValue

/-- `Map::get` on a parsed table/object (association list). -/
def mapGet {α : Type} (m : List (String × α)) (k : String) : Option α :=
  match m with
  | [] => none
  | kv :: rest => if kv.1 = k then some kv.2 else mapGet rest k

/-- The closure in `load_toml`: a string element becomes `Str(s.clone())`,
any other element is coerced to `Str("")`. -/
def tomlCoerce (e : TomlValue) : SettingValue :=
  match e with
  | TomlValue.str s => SettingValue.Str s
  | _ => SettingValue.Str ""

/-- The identical closure in `load_json`. -/
def jsonCoerce (e : JsonValue) : SettingValue :=
  match e with
  | JsonValue.str s => SettingValue.Str s
  | _ => SettingValue.Str ""

/-- One `if let Some(toml::Value::Array(elems)) = map.get(k)` block of
`load_toml`: insert the coerced element list under `key`, else no-op. -/
def tomlStageArr (m : List (String × TomlValue)) (k key : String) (s : Store) : Store :=
  match mapGet m k with
  | some (TomlValue.arr elems) =>
      Store.insert s key (SettingValue.Array (elems.map tomlCoerce))
  | _ => s

/-- One `if let Some(toml::Value::String(val)) = map.get(k)` block of
`load_toml`. -/
def tomlStageStr (m : List (String × TomlValue)) (k key : String) (s : Store) : Store :=
  match mapGet m k with
  | some (TomlValue.str val) => Store.insert s key (SettingValue.Str val)
  | _ => s

/-- One `if let Some(serde_json::Value::Array(elems)) = map.get(k)` block of
`load_json`. -/
def jsonStageArr (m : List (String × JsonValue)) (k key : String) (s : Store) : Store :=
  match mapGet m k with
  | some (JsonValue.arr elems) =>
      Store.insert s key (SettingValue.Array (elems.map jsonCoerce))
  | _ => s

/-- One `if let Some(serde_json::Value::String(val)) = map.get(k)` block of
`load_json`. -/
def jsonStageStr (m : List (String × JsonValue)) (k key : String) (s : Store) : Store :=
  match mapGet m k with
  | some (JsonValue.str val) => Store.insert s key (SettingValue.Str val)
  | _ => s

/-- The extraction part of `load_toml` (after a successful decode): if the
root is a table, probe `unit_dirs`, then `logging_dir`, then
`notifications_dir`, in the source's insertion order; otherwise no-op. -/
def extractToml (toml_conf : TomlValue) (settings : Store) : Store :=
  match toml_conf with
  | TomlValue.table m =>
      tomlStageStr m "notifications_dir" "notifications.dir"
        (tomlStageStr m "logging_dir" "logging.dir"
          (tomlStageArr m "unit_dirs" "unit.dirs" settings))
  | _ => settings

/-- The extraction part of `load_json`, structurally identical per source. -/
def extractJson (json_conf : JsonValue) (settings : Store) : Store :=
  match json_conf with
  | JsonValue.obj m =>
      jsonStageStr m "notifications_dir" "notifications.dir"
        (jsonStageStr m "logging_dir" "logging.dir"
          (jsonStageArr m "unit_dirs" "unit.dirs" settings))
  | _ => settings

/-- `fn load_toml`: on open/decode failure propagate the error with the
settings untouched, otherwise extract into the settings store. -/
def load_toml (decoded : Except String TomlValue) (settings : Store) :
    Except String Unit × Store :=
  match decoded with
  | Except.error e => (Except.error e, settings)
  | Except.ok toml_conf => (Except.ok (), extractToml toml_conf settings)

/-- `fn load_json`, the format-A twin of `load_toml`. -/
def load_json (decoded : Except String JsonValue) (settings : Store) :
    Except String Unit × Store :=
  match decoded with
  | Except.error e => (Except.error e, settings)
  | Except.ok json_conf => (Except.ok (), extractJson json_conf settings)

/-- `PathBuf::join` for the simple file-name components used here. -/
def pathJoin (base file : String) : String := base ++ "/" ++ file

/-- The candidate json path: `config_path.join("rustysd_config.json")`, or
the default `./config/rustysd_config.json` when no base was supplied. -/
def jsonPath (config_path : Option String) : String :=
  match config_path with
  | some p => pathJoin p "rustysd_config.json"
  | none => "./config/rustysd_config.json"

/-- The candidate toml path, with default `./config/rustysd_config.toml`. -/
def tomlPath (config_path : Option String) : String :=
  match config_path with
  | some p => pathJoin p "rustysd_config.toml"
  | none => "./config/rustysd_config.toml"

/-- The `if config_path_json.exists() { Some(load_json(..)) } else { None }`
step: attempt flag plus the (possibly updated) settings store. -/
def jsonStep (fsE : String → Bool) (jR : String → Except String JsonValue)
    (cp : Option String) (settings : Store) :
    Option (Except String Unit) × Store :=
  if fsE (jsonPath cp) then
    let r := load_json (jR (jsonPath cp)) settings
    (some r.1, r.2)
  else (none, settings)

/-- The corresponding toml step. -/
def tomlStep (fsE : String → Bool) (tR : String → Except String TomlValue)
    (cp : Option String) (settings : Store) :
    Option (Except String Unit) × Store :=
  if fsE (tomlPath cp) then
    let r := load_toml (tR (tomlPath cp)) settings
    (some r.1, r.2)
  else (none, settings)

/-- The json step run first, on the empty store. -/
def jsonStepRes (fsE : String → Bool) (jR : String → Except String JsonValue)
    (cp : Option String) : Option (Except String Unit) × Store :=
  jsonStep fsE jR cp initialStore

/-- The toml step run second, on the store left by the json step. -/
def tomlStepRes (fsE : String → Bool) (jR : String → Except String JsonValue)
    (tR : String → Except String TomlValue) (cp : Option String) :
    Option (Except String Unit) × Store :=
  tomlStep fsE tR cp (jsonStepRes fsE jR cp).2

/-- The settings store after both file steps (`json_conf` then `toml_conf`). -/
def mergedStore (fsE : String → Bool) (jR : String → Except String JsonValue)
    (tR : String → Except String TomlValue) (cp : Option String) : Store :=
  (tomlStepRes fsE jR tR cp).2

/-- The `json_conf` attempt flag of `load_config`. -/
def json_conf (fsE : String → Bool) (jR : String → Except String JsonValue)
    (cp : Option String) : Option (Except String Unit) :=
  (jsonStepRes fsE jR cp).1

/-- The `toml_conf` attempt flag of `load_config`. -/
def toml_conf (fsE : String → Bool) (jR : String → Except String JsonValue)
    (tR : String → Except String TomlValue) (cp : Option String) :
    Option (Except String Unit) :=
  (tomlStepRes fsE jR tR cp).1

/-- Rust `str::split('_')` over the character list: never returns an empty
list, keeps empty segments between consecutive separators. -/
def splitUnderscoreAux : List Char → String → List String
  | [], acc => [acc]
  | c :: cs, acc =>
      if c = '_' then acc :: splitUnderscoreAux cs ""
      else splitUnderscoreAux cs (acc.push c)

/-- Rust `str::split('_')` on a string. -/
def splitUnderscore (s : String) : List String := splitUnderscoreAux s.toList ""

/-- Rust `str::to_lowercase` (ASCII range, which covers the keys compared). -/
def lowerAscii (s : String) : String := String.mk (s.data.map Char.toLower)

/-- Rust `Vec::join(".")`. -/
def joinDot : List String → String
  | [] => ""
  | [x] => x
  | x :: xs => x ++ "." ++ joinDot xs

/-- The body of the `std::env::vars().for_each(..)` closure: lower-case the
underscore-separated segments of the name; if the first segment is
`rustysd`, drop it, dot-join the rest and insert the raw value. -/
def envStep (settings : Store) (kv : String × String) : Store :=
  match (splitUnderscore kv.1).map lowerAscii with
  | [] => settings
  | first :: rest =>
      if first = "rustysd" then
        Store.insert settings (joinDot rest) (SettingValue.Str kv.2)
      else settings

/-- The whole environment scan, applied after the file steps. -/
def envOverlay (env : List (String × String)) (settings : Store) : Store :=
  env.foldl envStep settings

/-- The settings store at readback time: files first, environment last. -/
def resolvedSettings (fsE : String → Bool) (jR : String → Except String JsonValue)
    (tR : String → Except String TomlValue) (env : List (String × String))
    (cp : Option String) : Store :=
  envOverlay env (mergedStore fsE jR tR cp)

/-- The element pattern used at `unit.dirs` readback: `Str` elements map to
a path, anything else to `None`. -/
def settingStr : SettingValue → Option String
  | SettingValue.Str s => some s
  | _ => none

/-- The array branch of the `unit.dirs` readback: map elements to optional
paths, then fold, keeping (in order) exactly the paths that exist on disk. -/
def existingPaths (fsE : String → Bool) (arr : List SettingValue) : List String :=
  (arr.map settingStr).foldl
    (fun acc el =>
      match el with
      | some path => if fsE path then acc ++ [path] else acc
      | none => acc) []

/-- Mirrors `struct LoggingConfig`. -/
structure LoggingConfig where
  log_dir : String

/-- Mirrors `struct Config`. -/
structure Config where
  unit_dirs : List String
  notification_sockets_dir : String

/-- The `Config` value `load_config` builds (unconditionally) from the
resolved settings: `unit.dirs` readback with its scalar/array asymmetry and
`./test_units` fallback, `notifications.dir` readback with its
`./notifications` fallback. -/
def resolvedConfig (fsE : String → Bool) (jR : String → Except String JsonValue)
    (tR : String → Except String TomlValue) (env : List (String × String))
    (cp : Option String) : Config :=
  let settings := resolvedSettings fsE jR tR env cp
  let notification_sockets_dir :=
    (settings "notifications.dir").map (fun dir =>
      match dir with
      | SettingValue.Str s => some s
      | _ => none)
  let unit_dirs :=
    (settings "unit.dirs").map (fun dir =>
      match dir with
      | SettingValue.Str s => [s]
      | SettingValue.Array arr => existingPaths fsE arr)
  { unit_dirs := unit_dirs.getD ["./test_units"]
    notification_sockets_dir :=
      (notification_sockets_dir.getD (some "./notifications")).getD "./notifications" }

/-- The `LoggingConfig` value `load_config` always builds: `logging.dir`
readback with its `./logs` fallback. -/
def resolvedLogging (fsE : String → Bool) (jR : String → Except String JsonValue)
    (tR : String → Except String TomlValue) (env : List (String × String))
    (cp : Option String) : LoggingConfig :=
  let settings := resolvedSettings fsE jR tR env cp
  let log_dir :=
    (settings "logging.dir").map (fun dir =>
      match dir with
      | SettingValue.Str s => some s
      | _ => none)
  { log_dir := (log_dir.getD (some "./logs")).getD "./logs" }

/-- `pub fn load_config`: the full resolution, returning the always-built
`LoggingConfig` paired with the `Config` result determined by the attempt
flags (conflict, decode error, missing-file check against the default toml
path, or success). -/
def load_config (fsE : String → Bool) (jR : String → Except String JsonValue)
    (tR : String → Except String TomlValue) (env : List (String × String))
    (cp : Option String) : LoggingConfig × Except String Config :=
  let config := resolvedConfig fsE jR tR env cp
  let conf : Except String Config :=
    match json_conf fsE jR cp with
    | some jc =>
        if (toml_conf fsE jR tR cp).isSome then
          Except.error "Found both json and toml conf!"
        else
          match jc with
          | Except.error e => Except.error e
          | Except.ok _ => Except.ok config
    | none =>
        match toml_conf fsE jR tR cp with
        | some (Except.error e) => Except.error e
        | some (Except.ok _) => Except.ok config
        | none =>
            if tomlPath cp = "./config/rustysd_config.toml" then Except.ok config
            else Except.error "No config file was loaded"
  (resolvedLogging fsE jR tR env cp, conf)

/-- `toml::Value` nodes the extractor never destructures. -/
def TomlValue.isOther : TomlValue → Bool
  | TomlValue.str _ => false
  | TomlValue.arr _ => false
  | TomlValue.table _ => false
  | _ => true

/-- `serde_json::Value` nodes the extractor never destructures. -/
def JsonValue.isOther : JsonValue → Bool
  | JsonValue.str _ => false
  | JsonValue.arr _ => false
  | JsonValue.obj _ => false
  | _ => true

mutual

/-- Shape equivalence between a toml tree and a json tree: equal strings,
pointwise-equivalent arrays, tables with equal keys and equivalent values
in the same order, and any two nodes the extractor treats as opaque. -/
inductive ShapeEq : TomlValue → JsonValue → Prop where
  | str (s : String) : ShapeEq (TomlValue.str s) (JsonValue.str s)
  | arr {l1 : List TomlValue} {l2 : List JsonValue} :
      ShapeEqList l1 l2 → ShapeEq (TomlValue.arr l1) (JsonValue.arr l2)
  | table {m1 : List (String × TomlValue)} {m2 : List (String × JsonValue)} :
      ShapeEqMap m1 m2 → ShapeEq (TomlValue.table m1) (JsonValue.obj m2)
  | other {t : TomlValue} {j : JsonValue} :
      TomlValue.isOther t = true → JsonValue.isOther j = true → ShapeEq t j

/-- Pointwise shape equivalence of element lists. -/
inductive ShapeEqList : List TomlValue → List JsonValue → Prop where
  | nil : ShapeEqList [] []
  | cons {t : TomlValue} {j : JsonValue} {l1 : List TomlValue} {l2 : List JsonValue} :
      ShapeEq t j → ShapeEqList l1 l2 → ShapeEqList (t :: l1) (j :: l2)

/-- Pointwise shape equivalence of table entry lists (same keys, in order). -/
inductive ShapeEqMap : List (String × TomlValue) → List (String × JsonValue) → Prop where
  | nil : ShapeEqMap [] []
  | cons {k : String} {t : TomlValue} {j : JsonValue}
      {m1 : List (String × TomlValue)} {m2 : List (String × JsonValue)} :
      ShapeEq t j → ShapeEqMap m1 m2 → ShapeEqMap ((k, t) :: m1) ((k, j) :: m2)

end

/-- Filesystem oracle on which no path exists. -/
def noFs : String → Bool := fun _ => false

/-- Filesystem oracle on which every path exists. -/
def fsAll : String → Bool := fun _ => true

/-- Json read oracle for scenarios in which no json file is opened. -/
def noJson : String → Except String JsonValue :=
  fun _ => Except.error "Error while opening config file: No such file"

/-- Toml read oracle for scenarios in which no toml file is opened. -/
def noToml : String → Except String TomlValue :=
  fun _ => Except.error "Error while opening config file: No such file"

/-- Filesystem with only the default toml config file present. -/
def fs1 : String → Bool := fun p => p == "./config/rustysd_config.toml"

/-- Toml config whose single `unit_dirs` entry `a` does not exist on disk. -/
def tr1 : String → Except String TomlValue :=
  fun _ => Except.ok (TomlValue.table [("unit_dirs", TomlValue.arr [TomlValue.str "a"])])

/-- Filesystem with the default toml config file and the directory `a`. -/
def fs3 : String → Bool :=
  fun p => p == "./config/rustysd_config.toml" || p == "a"

/-- Toml config listing the existing directory `a` twice in `unit_dirs`. -/
def tr3 : String → Except String TomlValue :=
  fun _ => Except.ok (TomlValue.table
    [("unit_dirs", TomlValue.arr [TomlValue.str "a", TomlValue.str "a"])])

/-- Json read oracle whose file sets `logging_dir` to `jl`. -/
def jr10 : String → Except String JsonValue :=
  fun _ => Except.ok (JsonValue.obj [("logging_dir", JsonValue.str "jl")])

/-- Toml read oracle whose file sets all three recognized keys. -/
def tr10 : String → Except String TomlValue :=
  fun _ => Except.ok (TomlValue.table
    [("logging_dir", TomlValue.str "tl"),
     ("notifications_dir", TomlValue.str "tn"),
     ("unit_dirs", TomlValue.arr [])])

/-- Sample toml tree for the extraction-equivalence instance. -/
def tSample : TomlValue := TomlValue.table [("logging_dir", TomlValue.str "x")]

/-- Sample json tree shape-equivalent to `tSample`. -/
def jSample : JsonValue := JsonValue.obj [("logging_dir", JsonValue.str "x")]

/-! ## Helper lemmas -/

theorem Store.insert_same (s : Store) (k : String) (v : SettingValue) :
    Store.insert s k v k = some v := by
  simp [Store.insert]

theorem Store.insert_other (s : Store) (k : String) (v : SettingValue) (q : String)
    (h : q ≠ k) : Store.insert s k v q = s q := by
  simp [Store.insert, h]

theorem existingPaths_foldl (fsE : String → Bool) (l : List SettingValue)
    (acc : List String) :
    (l.map settingStr).foldl
      (fun acc el =>
        match el with
        | some path => if fsE path then acc ++ [path] else acc
        | none => acc) acc
      = acc ++ (l.filterMap settingStr).filter fsE := by
  induction l generalizing acc with
  | nil => simp
  | cons a l ih =>
    cases a with
    | Str s =>
      cases hs : fsE s with
      | true => simp [settingStr, List.filterMap_cons, hs, ih, List.filter_cons]
      | false => simp [settingStr, List.filterMap_cons, hs, ih, List.filter_cons]
    | Array l2 => simp [settingStr, List.filterMap_cons, ih]

theorem existingPaths_eq (fsE : String → Bool) (arr : List SettingValue) :
    existingPaths fsE arr = (arr.filterMap settingStr).filter fsE := by
  simpa using existingPaths_foldl fsE arr []

theorem unitDirs_char (fsE : String → Bool) (jR : String → Except String JsonValue)
    (tR : String → Except String TomlValue) (env : List (String × String))
    (cp : Option String) :
    (resolvedConfig fsE jR tR env cp).unit_dirs =
      match resolvedSettings fsE jR tR env cp "unit.dirs" with
      | some (SettingValue.Str s) => [s]
      | some (SettingValue.Array arr) => (arr.filterMap settingStr).filter fsE
      | none => ["./test_units"] := by
  cases h : resolvedSettings fsE jR tR env cp "unit.dirs" with
  | none => simp [resolvedConfig, h]
  | some v =>
    cases v with
    | Str s => simp [resolvedConfig, h]
    | Array arr => simp [resolvedConfig, h, existingPaths_eq]

theorem shapeEqList_map_coerce {l1 : List TomlValue} {l2 : List JsonValue}
    (h : ShapeEqList l1 l2) : l1.map tomlCoerce = l2.map jsonCoerce := by
  induction l1 generalizing l2 with
  | nil => cases h; rfl
  | cons t l1 ih =>
    cases h with
    | cons ht hl =>
      rename_i j l2
      have hhd : tomlCoerce t = jsonCoerce j := by
        cases ht with
        | str s => rfl
        | arr hl2 => rfl
        | table hm => rfl
        | other o1 o2 =>
          have e1 : tomlCoerce t = SettingValue.Str "" := by
            cases t <;> simp_all [TomlValue.isOther, tomlCoerce]
          have e2 : jsonCoerce j = SettingValue.Str "" := by
            cases j <;> simp_all [JsonValue.isOther, jsonCoerce]
          rw [e1, e2]
      simp [List.map, hhd, ih hl]

theorem mapGet_shape {m1 : List (String × TomlValue)} {m2 : List (String × JsonValue)}
    (hm : ShapeEqMap m1 m2) (k : String) :
    (mapGet m1 k = none ∧ mapGet m2 k = none) ∨
    (∃ t j, mapGet m1 k = some t ∧ mapGet m2 k = some j ∧ ShapeEq t j) := by
  induction m1 generalizing m2 with
  | nil => cases hm; exact Or.inl ⟨rfl, rfl⟩
  | cons kt m1 ih =>
    obtain ⟨kk, t⟩ := kt
    cases hm with
    | cons ht hrest =>
      rename_i j m2x
      by_cases hk : kk = k
      · subst hk
        exact Or.inr ⟨t, j, by simp [mapGet], by simp [mapGet], ht⟩
      · have l1 : mapGet ((kk, t) :: m1) k = mapGet m1 k := by simp [mapGet, hk]
        have l2 : mapGet ((kk, j) :: m2x) k = mapGet m2x k := by simp [mapGet, hk]
        rw [l1, l2]
        exact ih hrest

theorem stageArr_eq {m1 : List (String × TomlValue)} {m2 : List (String × JsonValue)}
    (hm : ShapeEqMap m1 m2) (k key : String) (s : Store) :
    tomlStageArr m1 k key s = jsonStageArr m2 k key s := by
  rcases mapGet_shape hm k with ⟨h1, h2⟩ | ⟨t, j, h1, h2, ht⟩
  · simp [tomlStageArr, jsonStageArr, h1, h2]
  · cases ht with
    | str s2 => simp [tomlStageArr, jsonStageArr, h1, h2]
    | arr hl =>
      simp only [tomlStageArr, jsonStageArr, h1, h2]
      rw [shapeEqList_map_coerce hl]
    | table hm2 => simp [tomlStageArr, jsonStageArr, h1, h2]
    | other o1 o2 =>
      cases t <;> cases j <;>
        simp_all [tomlStageArr, jsonStageArr, TomlValue.isOther, JsonValue.isOther]

theorem stageStr_eq {m1 : List (String × TomlValue)} {m2 : List (String × JsonValue)}
    (hm : ShapeEqMap m1 m2) (k key : String) (s : Store) :
    tomlStageStr m1 k key s = jsonStageStr m2 k key s := by
  rcases mapGet_shape hm k with ⟨h1, h2⟩ | ⟨t, j, h1, h2, ht⟩
  · simp [tomlStageStr, jsonStageStr, h1, h2]
  · cases ht with
    | str s2 => simp [tomlStageStr, jsonStageStr, h1, h2]
    | arr hl => simp [tomlStageStr, jsonStageStr, h1, h2]
    | table hm2 => simp [tomlStageStr, jsonStageStr, h1, h2]
    | other o1 o2 =>
      cases t <;> cases j <;>
        simp_all [tomlStageStr, jsonStageStr, TomlValue.isOther, JsonValue.isOther]

/-! ## Claim theorems -/

/-- Claim C1, counterexample: with only the default toml config present,
listing the single non-existent directory `a` in `unit_dirs`, every list
entry is filtered out by the existence check and the returned
`Config.unit_dirs` is the empty sequence — not the claimed fixed default
`["./test_units"]`, so `Config.unit_dirs` can be empty. -/
theorem C1_counterexample :
    (load_config fs1 noJson tr1 [] none).2 =
      Except.ok { unit_dirs := [], notification_sockets_dir := "./notifications" } := rfl

/-- Claim C1, amended: the fixed default single-entry sequence
`["./test_units"]` is substituted exactly when the key `unit.dirs` is
absent from the settings store at readback; when the key is present as a
list all of whose entries are filtered out, `Config.unit_dirs` is empty. -/
theorem C1_amended (fsE : String → Bool) (jR : String → Except String JsonValue)
    (tR : String → Except String TomlValue) (env : List (String × String))
    (cp : Option String)
    (h : resolvedSettings fsE jR tR env cp "unit.dirs" = none) :
    (resolvedConfig fsE jR tR env cp).unit_dirs = ["./test_units"] := by
  simp [resolvedConfig, h]

/-- Claim C1, witness: a concrete run with the key absent, on which the
amended theorem yields the default. -/
theorem C1_witness :
    resolvedSettings noFs noJson noToml [] none "unit.dirs" = none ∧
    (resolvedConfig noFs noJson noToml [] none).unit_dirs = ["./test_units"] :=
  ⟨rfl, C1_amended noFs noJson noToml [] none rfl⟩

/-- Claim C2, counterexample: the caller supplies the explicit base
directory `./config`; neither candidate file exists, yet resolution
succeeds with the all-default `Config` instead of the claimed
"no config file found" error, because the joined toml path equals the
default toml path the code compares against. -/
theorem C2_counterexample :
    (load_config noFs noJson noToml [] (some "./config")).2 =
      Except.ok { unit_dirs := ["./test_units"],
                  notification_sockets_dir := "./notifications" } := rfl

/-- Claim C2, amended: when neither candidate file exists, the result is
determined by comparing the resolved toml path against the fixed default
`./config/rustysd_config.toml`: equal (no base supplied, or an explicit
base that joins to the default, such as `./config`) gives success, any
other explicit base gives the "No config file was loaded" error. -/
theorem C2_amended (fsE : String → Bool) (jR : String → Except String JsonValue)
    (tR : String → Except String TomlValue) (env : List (String × String))
    (cp : Option String)
    (hj : fsE (jsonPath cp) = false) (ht : fsE (tomlPath cp) = false) :
    (load_config fsE jR tR env cp).2 =
      if tomlPath cp = "./config/rustysd_config.toml"
      then Except.ok (resolvedConfig fsE jR tR env cp)
      else Except.error "No config file was loaded" := by
  have hjc : json_conf fsE jR cp = none := by
    simp [json_conf, jsonStepRes, jsonStep, hj]
  have htc : toml_conf fsE jR tR cp = none := by
    simp [toml_conf, tomlStepRes, tomlStep, ht]
  simp [load_config, hjc, htc]

/-- Claim C2, witness: a concrete explicit base directory other than
`./config`, with no files present, on which the amended theorem gives the
missing-config error via the path comparison. -/
theorem C2_witness :
    (load_config noFs noJson noToml [] (some "./somewhere")).2 =
      if tomlPath (some "./somewhere") = "./config/rustysd_config.toml"
      then Except.ok (resolvedConfig noFs noJson noToml [] (some "./somewhere"))
      else Except.error "No config file was loaded" :=
  C2_amended noFs noJson noToml [] (some "./somewhere") rfl rfl

/-- Claim C3, counterexample: the default toml config lists the existing
directory `a` twice in `unit_dirs`; the returned `Config.unit_dirs` is
`["a", "a"]` — the duplicate is not filtered out. -/
theorem C3_counterexample :
    (load_config fs3 noJson tr3 [] none).2 =
      Except.ok { unit_dirs := ["a", "a"],
                  notification_sockets_dir := "./notifications" } := rfl

/-- Claim C3, amended: duplicates are preserved, not filtered: when the
resolved `unit.dirs` list contains the same existing path twice,
`Config.unit_dirs` contains it twice; the list readback applies only the
on-disk existence filter. -/
theorem C3_amended (fsE : String → Bool) (jR : String → Except String JsonValue)
    (tR : String → Except String TomlValue) (env : List (String × String))
    (cp : Option String) (p : String)
    (h : resolvedSettings fsE jR tR env cp "unit.dirs" =
      some (SettingValue.Array [SettingValue.Str p, SettingValue.Str p]))
    (hp : fsE p = true) :
    (resolvedConfig fsE jR tR env cp).unit_dirs = [p, p] := by
  have hc := unitDirs_char fsE jR tR env cp
  rw [h] at hc
  rw [hc]
  simp [settingStr, List.filter_cons, hp]

/-- Claim C3, witness: the concrete duplicate-entry run, on which the
amended theorem yields the duplicated sequence. -/
theorem C3_witness :
    (resolvedConfig fs3 noJson tr3 [] none).unit_dirs = ["a", "a"] :=
  C3_amended fs3 noJson tr3 [] none "a" rfl rfl

/-- Claim C4, counterexample: a variable named exactly `RUSTYSD` has a
single segment equal to the recognized leading literal, so — contrary to
the claim that it inserts nothing — its value is inserted into the
settings store under the empty key. -/
theorem C4_counterexample :
    resolvedSettings noFs noJson noToml [("RUSTYSD", "v")] none "" =
      some (SettingValue.Str "v") := rfl

/-- Claim C4, amended: a variable whose lower-cased first
underscore-segment differs from `rustysd` is skipped and the settings
store is unchanged at every key (in particular single-segment names other
than the bare literal); but the variable named exactly `RUSTYSD` is not
skipped: its value is inserted under the empty key. -/
theorem C4_amended (key value v : String) (settings : Store) (q : String)
    (h : ((splitUnderscore key).map lowerAscii).head? ≠ some "rustysd") :
    envOverlay [(key, value)] settings q = settings q ∧
    envOverlay [("RUSTYSD", v)] settings "" = some (SettingValue.Str v) := by
  constructor
  · show envStep settings (key, value) q = settings q
    cases hl : (splitUnderscore key).map lowerAscii with
    | nil => simp [envStep, hl]
    | cons first rest =>
      rw [hl] at h
      simp only [List.head?] at h
      have : first ≠ "rustysd" := fun he => h (by rw [he])
      simp [envStep, hl, this]
  · rfl

/-- Claim C4, witness: the variable `OTHER` is skipped at its own would-be
key, while `RUSTYSD` inserts under the empty key. -/
theorem C4_witness :
    envOverlay [("OTHER", "x")] initialStore "other" = initialStore "other" ∧
    envOverlay [("RUSTYSD", "v")] initialStore "" = some (SettingValue.Str "v") :=
  C4_amended "OTHER" "x" "v" initialStore "other" (by decide)

/-- Claim C5: whenever both candidate files exist (the existence oracle
answers true for both resolved paths), the `Config` result is the
conflicting-sources error, for every decode outcome of either file. -/
theorem C5_theorem (fsE : String → Bool) (jR : String → Except String JsonValue)
    (tR : String → Except String TomlValue) (env : List (String × String))
    (cp : Option String)
    (hj : fsE (jsonPath cp) = true) (ht : fsE (tomlPath cp) = true) :
    (load_config fsE jR tR env cp).2 =
      Except.error "Found both json and toml conf!" := by
  have hjc : json_conf fsE jR cp = some (load_json (jR (jsonPath cp)) initialStore).1 := by
    simp [json_conf, jsonStepRes, jsonStep, hj]
  have htc : (toml_conf fsE jR tR cp).isSome = true := by
    simp [toml_conf, tomlStepRes, tomlStep, ht]
  simp [load_config, hjc, htc]

/-- Claim C5, witness: both files present with failing decodes still give
the conflict error. -/
theorem C5_witness :
    (load_config fsAll noJson noToml [] none).2 =
      Except.error "Found both json and toml conf!" :=
  C5_theorem fsAll noJson noToml [] none rfl rfl

/-- Claim C6: the scalar/list asymmetry of the `unit.dirs` readback.  A
`Str` value becomes the single-entry list `[s]` with no existence check on
`s`; an `Array` value is mapped through the `Str`-element pattern and
filtered by on-disk existence (and an absent key gives the default). -/
theorem C6_theorem (fsE : String → Bool) (jR : String → Except String JsonValue)
    (tR : String → Except String TomlValue) (env : List (String × String))
    (cp : Option String) :
    (resolvedConfig fsE jR tR env cp).unit_dirs =
      match resolvedSettings fsE jR tR env cp "unit.dirs" with
      | some (SettingValue.Str s) => [s]
      | some (SettingValue.Array arr) => (arr.filterMap settingStr).filter fsE
      | none => ["./test_units"] :=
  unitDirs_char fsE jR tR env cp

/-- Claim C7: an environment variable `RUSTYSD_LOGGING_DIR=v` overrides any
file-derived `logging_dir`: for every filesystem, file contents and earlier
environment entries, the returned `LoggingConfig.log_dir` is `v`, because
the overlay runs after file extraction and overwrites the store entry. -/
theorem C7_theorem (fsE : String → Bool) (jR : String → Except String JsonValue)
    (tR : String → Except String TomlValue) (cp : Option String)
    (env1 : List (String × String)) (v : String) :
    (load_config fsE jR tR (env1 ++ [("RUSTYSD_LOGGING_DIR", v)]) cp).1 =
      { log_dir := v } := by
  have h : resolvedSettings fsE jR tR (env1 ++ [("RUSTYSD_LOGGING_DIR", v)]) cp
      "logging.dir" = some (SettingValue.Str v) := by
    unfold resolvedSettings envOverlay
    rw [List.foldl_append]
    exact rfl
  simp [load_config, resolvedLogging, h]

/-- Claim C8: the `LoggingConfig` component is always constructed,
independent of the `Config` outcome: its `log_dir` is the `logging.dir`
scalar from the settings store when present, and `./logs` otherwise. -/
theorem C8_theorem (fsE : String → Bool) (jR : String → Except String JsonValue)
    (tR : String → Except String TomlValue) (env : List (String × String))
    (cp : Option String) :
    (load_config fsE jR tR env cp).1 =
      { log_dir :=
          match resolvedSettings fsE jR tR env cp "logging.dir" with
          | some (SettingValue.Str s) => s
          | _ => "./logs" } := by
  cases h : resolvedSettings fsE jR tR env cp "logging.dir" with
  | none => simp [load_config, resolvedLogging, h]
  | some v =>
    cases v with
    | Str s => simp [load_config, resolvedLogging, h]
    | Array a => simp [load_config, resolvedLogging, h]

/-- Claim C9: the extraction step is format-independent: on
shape-equivalent parsed trees, the toml extractor and the json extractor
leave exactly the same settings store (same keys, same values, including
the empty-string coercion of non-string array elements and the silent
treatment of non-table roots and wrongly-typed keys). -/
theorem C9_theorem (t : TomlValue) (j : JsonValue) (settings : Store)
    (h : ShapeEq t j) : extractToml t settings = extractJson j settings := by
  cases h with
  | str s => rfl
  | arr hl => rfl
  | table hm =>
    simp only [extractToml, extractJson]
    rw [stageArr_eq hm, stageStr_eq hm, stageStr_eq hm]
  | other o1 o2 =>
    have e1 : extractToml t settings = settings := by
      cases t <;> simp_all [extractToml, TomlValue.isOther]
    have e2 : extractJson j settings = settings := by
      cases j <;> simp_all [extractJson, JsonValue.isOther]
    rw [e1, e2]

/-- Claim C9, witness: a concrete shape-equivalent pair of trees on which
both extractors produce the same store. -/
theorem C9_witness : extractToml tSample initialStore = extractJson jSample initialStore :=
  C9_theorem tSample jSample initialStore
    (ShapeEq.table (ShapeEqMap.cons (ShapeEq.str "x") ShapeEqMap.nil))

/-- Claim C10: when both candidate files exist and the toml file decodes to
a table defining all three recognized keys, the toml values stand in the
merged (pre-overlay) settings store regardless of the json file's contents
(json extracted first, toml second, insert overwrites), the `Config` result
is the conflict error, and the returned `LoggingConfig` is still the one
resolved from those merged settings. -/
theorem C10_theorem (fsE : String → Bool) (jR : String → Except String JsonValue)
    (tR : String → Except String TomlValue) (env : List (String × String))
    (cp : Option String) (m : List (String × TomlValue)) (lv nv : String)
    (ud : List TomlValue)
    (hj : fsE (jsonPath cp) = true) (ht : fsE (tomlPath cp) = true)
    (htr : tR (tomlPath cp) = Except.ok (TomlValue.table m))
    (hlv : mapGet m "logging_dir" = some (TomlValue.str lv))
    (hnv : mapGet m "notifications_dir" = some (TomlValue.str nv))
    (hud : mapGet m "unit_dirs" = some (TomlValue.arr ud)) :
    (load_config fsE jR tR env cp).2 = Except.error "Found both json and toml conf!" ∧
    resolvedSettings fsE jR tR [] cp "logging.dir" = some (SettingValue.Str lv) ∧
    resolvedSettings fsE jR tR [] cp "notifications.dir" = some (SettingValue.Str nv) ∧
    resolvedSettings fsE jR tR [] cp "unit.dirs" =
      some (SettingValue.Array (ud.map tomlCoerce)) ∧
    (load_config fsE jR tR env cp).1 = resolvedLogging fsE jR tR env cp := by
  have hms : mergedStore fsE jR tR cp =
      tomlStageStr m "notifications_dir" "notifications.dir"
        (tomlStageStr m "logging_dir" "logging.dir"
          (tomlStageArr m "unit_dirs" "unit.dirs" (jsonStepRes fsE jR cp).2)) := by
    simp [mergedStore, tomlStepRes, tomlStep, ht, htr, load_toml, extractToml]
  have hrs : resolvedSettings fsE jR tR [] cp =
      tomlStageStr m "notifications_dir" "notifications.dir"
        (tomlStageStr m "logging_dir" "logging.dir"
          (tomlStageArr m "unit_dirs" "unit.dirs" (jsonStepRes fsE jR cp).2)) := by
    simp only [resolvedSettings, envOverlay, List.foldl_nil]
    exact hms
  refine ⟨?_, ?_, ?_, ?_, rfl⟩
  · have hjc : json_conf fsE jR cp =
        some (load_json (jR (jsonPath cp)) initialStore).1 := by
      simp [json_conf, jsonStepRes, jsonStep, hj]
    have htc : (toml_conf fsE jR tR cp).isSome = true := by
      simp [toml_conf, tomlStepRes, tomlStep, ht]
    simp [load_config, hjc, htc]
  · rw [hrs]
    simp only [tomlStageStr, hnv, hlv]
    rw [Store.insert_other _ "notifications.dir" _ "logging.dir" (by decide),
      Store.insert_same]
  · rw [hrs]
    simp only [tomlStageStr, hnv]
    rw [Store.insert_same]
  · rw [hrs]
    simp only [tomlStageStr, tomlStageArr, hnv, hlv, hud]
    rw [Store.insert_other _ "notifications.dir" _ "unit.dirs" (by decide),
      Store.insert_other _ "logging.dir" _ "unit.dirs" (by decide),
      Store.insert_same]

/-- Claim C10, witness: both files present, the json file also setting
`logging_dir`; the toml values win in the merged store and the conflict
error is returned alongside the toml-derived `LoggingConfig`. -/
theorem C10_witness :
    (load_config fsAll jr10 tr10 [] none).2 =
      Except.error "Found both json and toml conf!" ∧
    resolvedSettings fsAll jr10 tr10 [] none "logging.dir" =
      some (SettingValue.Str "tl") ∧
    resolvedSettings fsAll jr10 tr10 [] none "notifications.dir" =
      some (SettingValue.Str "tn") ∧
    resolvedSettings fsAll jr10 tr10 [] none "unit.dirs" =
      some (SettingValue.Array (List.map tomlCoerce [])) ∧
    (load_config fsAll jr10 tr10 [] none).1 = resolvedLogging fsAll jr10 tr10 [] none :=
  C10_theorem fsAll jr10 tr10 [] none
    [("logging_dir", TomlValue.str "tl"), ("notifications_dir", TomlValue.str "tn"),
     ("unit_dirs", TomlValue.arr [])] "tl" "tn" []
    rfl rfl rfl rfl rfl rfl
